import Mathlib

set_option maxHeartbeats 1000000

/-!
Shallow embedding of the PixelPerfect UI-diff browser application:
the analysis service (`src/services/geminiService.ts`), the Figma style
extractor (`src/services/figmaService.ts`), the configuration store
(`src/services/configService.ts`) and the bounding-box overlay components of
`src/components/ImageAnnotator.tsx`.  Network calls and JSON parsing are
abstracted as outcome-valued parameters; all control flow (fallback loops,
guards, error mapping, resizing arithmetic) is translated directly from the
TypeScript source.
-/

/-- Whether `needle` occurs as a contiguous sublist of `haystack`. -/
def listHasInfix (needle : List Char) : List Char → Bool
  | [] => needle.isEmpty
  | c :: t => needle.isPrefixOf (c :: t) || listHasInfix needle t

/-- JavaScript `String.prototype.includes`: substring containment. -/
def strIncludes (s sub : String) : Bool :=
  listHasInfix sub.toList s.toList

/-- Truthiness of an optional boolean field (JS `if (x.flag)` where
`flag?: boolean`): `undefined` and `false` are falsy. -/
def truthy (o : Option Bool) : Bool :=
  o.getD false

/-- The `IssueCategory` enum from the shared types module. -/
inductive IssueCategory where
  | text
  | color
  | spacing
  | image
  | size
  | other
deriving DecidableEq

/-- The `IssueSeverity` enum from the shared types module. -/
inductive IssueSeverity where
  | high
  | medium
  | low
deriving DecidableEq

/-- The `Issue` record from the shared types module: `boundingBox?: number[]`
(4 integers `[ymin, xmin, ymax, xmax]` on a 0-1000 scale when present) and
`isIgnored?: boolean` are optional. -/
structure Issue where
  category : IssueCategory
  severity : IssueSeverity
  description : String
  suggestion : String
  location : String
  boundingBox : Option (List Int)
  isIgnored : Option Bool
deriving DecidableEq

/-- The `AnalysisResult` record from the shared types module. -/
structure AnalysisResult where
  score : Int
  summary : String
  issues : List Issue
deriving DecidableEq

/-- The `ApiConfig` record from the shared types module. -/
structure ApiConfig where
  id : String
  name : String
  apiKey : String
  baseUrl : Option String
  models : List String
  isDefault : Option Bool
deriving DecidableEq

/-- The `FigmaStyleInfo` from the shared types module: a bag of optional extracted
style facts.  The claims treat it opaquely (only presence matters), so the
sections are kept as optional opaque payloads. -/
structure FigmaStyleInfo where
  colors : Option (List (String × String)) := none
  spacing : Option String := none
  dimensions : Option String := none
  typography : Option String := none
  content : Option String := none
deriving DecidableEq

/-- The `ERROR_MAPPINGS` from `src/services/geminiService.ts`, listed in the order
`Object.entries` enumerates the object's keys (JavaScript puts array-index-like
keys `"403","412","500","503"` first, in ascending numeric order, then the
remaining string keys in insertion order). -/
def ERROR_MAPPINGS : List (String × String) :=
  [("403", "API Key 无效或无权限，请检查配置 (403 Forbidden)。"),
   ("412", "所在地区暂不支持 Gemini API，请尝试使用代理或更换 IP (412 Precondition Failed)。"),
   ("500", "服务器处理失败，图片可能过大或内容过于复杂，已尝试压缩重试 (500 Internal Error)。"),
   ("503", "服务暂时不可用，请稍后重试 (503 Service Unavailable)。"),
   ("Failed to fetch", "网络请求失败，请检查网络连接或代理设置。"),
   ("Overloaded", "模型负载过高，请稍后重试。")]

/-- The `getFriendlyErrorMessage` from `src/services/geminiService.ts`: the first
mapping whose key occurs as a substring of the error message wins; otherwise a
generic message containing the first 100 characters of the message. -/
def getFriendlyErrorMessage (msg : String) : String :=
  match ERROR_MAPPINGS.find? (fun kv => strIncludes msg kv.1) with
  | some kv => kv.2
  | none => "分析服务异常: " ++ msg.take 100 ++ "..."

/-- The `schemaSupportedModels` table inside `analyzeUiDifferences`. -/
def schemaSupportedModels : List String :=
  ["gemini-3-pro-preview",
   "gemini-3-flash-preview",
   "gemini-2.0-flash-exp",
   "gemini-1.5-pro",
   "gemini-1.5-flash"]

/-- The `supportsSchema` from `src/services/geminiService.ts`: a model supports
schema output when its name contains one of the known fragments. -/
def supportsSchema (modelName : String) : Bool :=
  schemaSupportedModels.any (fun m => strIncludes modelName m)

/-- JavaScript `String.prototype.trim`: drop whitespace from both ends. -/
def jsTrim (s : String) : String :=
  String.mk (((s.toList.dropWhile Char.isWhitespace).reverse.dropWhile
    Char.isWhitespace).reverse)

/-- The `validModels` computation in `analyzeUiDifferences`:
`models.map(m => m.trim()).filter(m => m.length > 0)`. -/
def validModelsOf (models : List String) : List String :=
  (models.map jsTrim).filter (fun m => 0 < m.length)

/-- Outcome of one `runAnalysis` attempt against one model: either a parsed
`AnalysisResult`, or a failure (network error, empty response, or JSON parse
error) carrying the thrown error's message. -/
inductive AttemptOutcome where
  | success (result : AnalysisResult)
  | failure (message : String)
deriving DecidableEq

/-- One outbound request to the model provider, tagged by which code path
issued it (`extractFigmaStyles` or the analysis fallback loop). -/
inductive ProviderCall where
  | extraction (model : String)
  | analysis (model : String)
deriving DecidableEq

/-- The Figma-extraction loop in `extractFigmaStyles`
(`src/services/figmaService.ts`): try each model of the profile's list in
order; a parse success returns immediately, a failure continues with the next
model; when all models fail the loop falls through with `none`.  The first
component records one provider call per attempted model. -/
def extractLoopTr (att : String → Option FigmaStyleInfo) :
    List String → List ProviderCall × Option FigmaStyleInfo
  | [] => ([], none)
  | m :: rest =>
    match att m with
    | some r => ([ProviderCall.extraction m], some r)
    | none =>
      ((ProviderCall.extraction m) :: (extractLoopTr att rest).1,
       (extractLoopTr att rest).2)

/-- The `extractFigmaStyles` from `src/services/figmaService.ts`, with its provider
calls traced: returns `none` for an empty/whitespace URL
(`!figmaUrl || !figmaUrl.trim()`), for a missing config or empty API key, and
when every model in the chain fails; otherwise the first successful parse. -/
def extractFigmaStylesTr (figmaUrl : String) (config : Option ApiConfig)
    (att : String → Option FigmaStyleInfo) :
    List ProviderCall × Option FigmaStyleInfo :=
  if jsTrim figmaUrl = "" then ([], none)
  else
    match config with
    | none => ([], none)
    | some c =>
      if c.apiKey = "" then ([], none)
      else extractLoopTr att c.models

/-- The `extractFigmaStyles` (result only, trace dropped). -/
def extractFigmaStyles (figmaUrl : String) (config : Option ApiConfig)
    (att : String → Option FigmaStyleInfo) : Option FigmaStyleInfo :=
  (extractFigmaStylesTr figmaUrl config att).2

/-- The model fallback loop of `analyzeUiDifferences`
(`src/services/geminiService.ts` lines 533-554): each model is attempted in
order with `supportsSchema` deciding schema mode; a success returns
immediately, a failure on any model but the last continues with the next
model, and a failure on the last model surfaces
`getFriendlyErrorMessage` of that failure.  The first component records one
provider call per attempted model.  (The empty case mirrors the defensive
post-loop branch of the source, unreachable behind the non-empty guard.) -/
def fallbackLoopTr (att : String → Bool → AttemptOutcome) :
    List String → List ProviderCall × Except String AnalysisResult
  | [] => ([], Except.error "所有模型尝试失败，但没有捕获到具体错误信息")
  | [m] =>
    ([ProviderCall.analysis m],
     match att m (supportsSchema m) with
     | AttemptOutcome.success r => Except.ok r
     | AttemptOutcome.failure e => Except.error (getFriendlyErrorMessage e))
  | m :: m2 :: rest =>
    match att m (supportsSchema m) with
    | AttemptOutcome.success r => ([ProviderCall.analysis m], Except.ok r)
    | AttemptOutcome.failure _ =>
      ((ProviderCall.analysis m) :: (fallbackLoopTr att (m2 :: rest)).1,
       (fallbackLoopTr att (m2 :: rest)).2)

/-- The Figma-extraction step inside `analyzeUiDifferences`: extraction runs
only when no style info was passed in and a (truthy, i.e. non-empty) Figma URL
was supplied (`if (!extractedStyleInfo && figmaUrl)`). -/
def extractionCalls (c : ApiConfig) (figmaUrl : Option String)
    (figmaStyleInfo : Option FigmaStyleInfo)
    (att : String → Option FigmaStyleInfo) : List ProviderCall :=
  match figmaStyleInfo with
  | some _ => []
  | none =>
    match figmaUrl with
    | none => []
    | some url =>
      if url = "" then [] else (extractFigmaStylesTr url (some c) att).1

/-- The `analyzeUiDifferences` from `src/services/geminiService.ts` (the current,
config-driven version at lines 397-563).  The resolved config is passed in
(`getActiveConfig` snapshot); image compression is local, so the provider-call
trace consists of Figma-extraction calls followed by analysis calls.  Guards
in source order: missing config, empty API key, then (after extraction) the
empty-after-trim model list, then the fallback loop. -/
def analyzeUiDifferences (config : Option ApiConfig) (figmaUrl : Option String)
    (figmaStyleInfo : Option FigmaStyleInfo)
    (extractAtt : String → Option FigmaStyleInfo)
    (anAtt : String → Bool → AttemptOutcome) :
    List ProviderCall × Except String AnalysisResult :=
  match config with
  | none => ([], Except.error "未找到可用的 API 配置，请先添加配置")
  | some c =>
    if c.apiKey = "" then ([], Except.error "API Key 未设置，请检查配置")
    else
      if validModelsOf c.models = [] then
        (extractionCalls c figmaUrl figmaStyleInfo extractAtt,
         Except.error "配置中没有有效的模型名称，请检查 API 配置中的模型列表")
      else
        (extractionCalls c figmaUrl figmaStyleInfo extractAtt
           ++ (fallbackLoopTr anAtt (validModelsOf c.models)).1,
         (fallbackLoopTr anAtt (validModelsOf c.models)).2)

/-- JavaScript `Math.round(a / b)` on non-negative integers `a`, `b > 0`
(half-values round up), as natural-number arithmetic. -/
def jsRoundDiv (a b : Nat) : Nat :=
  (2 * a + b) / (2 * b)

/-- The resizing arithmetic of `compressImage` (`src/services/geminiService.ts`
lines 263-271): only widths above `MAX_WIDTH = 1024` are scaled down; the
height is then `Math.round((height * 1024) / width)`.  Returns
`(width, height)` of the canvas the image is drawn onto. -/
def resizeDims (width height : Nat) : Nat × Nat :=
  if 1024 < width then (1024, jsRoundDiv (height * 1024) width)
  else (width, height)

/-- A JavaScript `\w` word character (`[A-Za-z0-9_]`). -/
def isWordChar (c : Char) : Bool :=
  c.isAlphanum || c = '_'

/-- Length of a leading `data:image/\w+;base64,` header of `s`, when present:
the regex `/^data:image\/\w+;base64,/` used by `compressImage`. -/
def dataHeaderEnd (s : String) : Option Nat :=
  let cs := s.toList
  let p1 := "data:image/".toList
  if p1.isPrefixOf cs then
    let rest := cs.drop p1.length
    let w := rest.takeWhile isWordChar
    if w.isEmpty then none
    else
      let p2 := ";base64,".toList
      if p2.isPrefixOf (rest.drop w.length) then
        some (p1.length + w.length + p2.length)
      else none
  else none

/-- The `base64Str.replace(/^data:image\/\w+;base64,/, "")`: strip a leading
data-URL header when present, otherwise leave the string unchanged. -/
def stripDataHeader (s : String) : String :=
  match dataHeaderEnd s with
  | some n => String.mk (s.toList.drop n)
  | none => s

/-- The `compressImage` from `src/services/geminiService.ts` (lines 255-294).
Image decoding is abstracted by `decode` (`none` models `img.onerror`; `some
(w, h)` the decoded natural dimensions), canvas-context availability by
`ctxAvailable`, and `canvas.toDataURL('image/jpeg', 0.8)` by `encode` applied
to the canvas dimensions.  Every path resolves: decode failure and a missing
2D context both fall back to the input with any data-URL header stripped. -/
def compressImage (base64Str : String) (decode : Option (Nat × Nat))
    (ctxAvailable : Bool) (encode : Nat → Nat → String) : String :=
  match decode with
  | none => stripDataHeader base64Str
  | some (w, h) =>
    if ctxAvailable then
      stripDataHeader (encode (resizeDims w h).1 (resizeDims w h).2)
    else stripDataHeader base64Str

/-- The inline style computed by `IssueMarker`
(`src/components/ImageAnnotator.tsx` lines 124-129): each box component maps
to a percentage by division by 10. -/
structure MarkerStyle where
  top : ℚ
  left : ℚ
  height : ℚ
  width : ℚ
deriving DecidableEq

/-- The `useMemo` style computation of `IssueMarker`: percentage offsets from
a `[ymin, xmin, ymax, xmax]` box on the 0-1000 scale. -/
def markerStyle (ymin xmin ymax xmax : Int) : MarkerStyle :=
  { top := (ymin : ℚ) / 10
    left := (xmin : ℚ) / 10
    height := ((ymax : ℚ) - (ymin : ℚ)) / 10
    width := ((xmax : ℚ) - (xmin : ℚ)) / 10 }

/-- A rendered issue marker: its positioned style, the number shown in the
badge (`index + 1`), and the index reported by its click handler
(`onClick(index)`). -/
structure Marker where
  index : Nat
  badge : Nat
  clickIndex : Nat
  style : MarkerStyle
  severity : IssueSeverity
deriving DecidableEq

/-- The `IssueMarker` from `src/components/ImageAnnotator.tsx`: renders nothing
(`null`) when `boundingBox` is missing or does not have exactly 4 components;
otherwise one absolutely-positioned marker whose badge shows `index + 1` and
whose click handler reports `index`. -/
def renderIssueMarker (issue : Issue) (index : Nat) : Option Marker :=
  match issue.boundingBox with
  | some [ymin, xmin, ymax, xmax] =>
    some { index := index
           badge := index + 1
           clickIndex := index
           style := markerStyle ymin xmin ymax xmax
           severity := issue.severity }
  | _ => none

/-- The cropped comparison view of `CroppedImage`: its container's CSS aspect
value and the box driving the on-load transform. -/
structure CropView where
  aspect : ℚ
  box : List Int
deriving DecidableEq

/-- The `CroppedImage` from `src/components/ImageAnnotator.tsx` (lines 24-31):
renders nothing for a missing box or a box of length ≠ 4; otherwise a view
whose aspect value is `(xmax - xmin) / (ymax - ymin)` guarded against a
non-positive height. -/
def renderCroppedImage (box : Option (List Int)) : Option CropView :=
  match box with
  | some [ymin, xmin, ymax, xmax] =>
    some { aspect :=
             if 0 < ymax - ymin then
               ((xmax : ℚ) - (xmin : ℚ)) / ((ymax : ℚ) - (ymin : ℚ))
             else 1
           box := [ymin, xmin, ymax, xmax] }
  | _ => none

/-- The marker list produced by `issues.map((issue, idx) => ...)` in
`ImageAnnotator` (lines 221-238), accumulating the original index `idx`:
ignored issues render `null`, and `IssueMarker` itself renders `null` for
invalid boxes; everything else renders a marker carrying the original
index. -/
def renderMarkersFrom (issues : List Issue) (idx : Nat) : List Marker :=
  match issues with
  | [] => []
  | issue :: rest =>
    if truthy issue.isIgnored then renderMarkersFrom rest (idx + 1)
    else
      match renderIssueMarker issue idx with
      | some m => m :: renderMarkersFrom rest (idx + 1)
      | none => renderMarkersFrom rest (idx + 1)

/-- The full overlay of `ImageAnnotator`: markers for the issue list, indexed
from 0. -/
def renderMarkers (issues : List Issue) : List Marker :=
  renderMarkersFrom issues 0

/-- The environment variables read by `src/services/configService.ts`. -/
structure EnvVars where
  apiKey : Option String := none
  baseUrl : Option String := none
deriving DecidableEq

/-- The `DEFAULT_CONFIG_ID` from `src/services/configService.ts`. -/
def defaultConfigId : String := "pixelperfect_default_config"

/-- The `getDefaultConfig` from `src/services/configService.ts`: the sentinel
profile seeded from environment variables; note that it is built with
`isDefault: true` unconditionally. -/
def getDefaultConfig (env : EnvVars) : ApiConfig :=
  { id := defaultConfigId
    name := "默认配置（环境变量）"
    apiKey := env.apiKey.getD ""
    baseUrl := env.baseUrl
    models := ["gemini-3-pro-preview", "gemini-2.5-flash-image", "gemini-3-flash-preview"]
    isDefault := some true }

/-- The `getApiConfigs` from `src/services/configService.ts`.  `stored` is the
parsed content of local storage under `STORAGE_KEY` (`none` when absent; a
parse failure also yields just the default config, modelled by `none`).  When
no saved config is marked default the sentinel's flag is (re)set to `true`;
the source has no branch clearing it otherwise. -/
def getApiConfigs (env : EnvVars) (stored : Option (List ApiConfig)) :
    List ApiConfig :=
  match stored with
  | none => [getDefaultConfig env]
  | some savedConfigs =>
    if savedConfigs.any (fun c => truthy c.isDefault) then
      getDefaultConfig env :: savedConfigs
    else
      { getDefaultConfig env with isDefault := some true } :: savedConfigs

/-- The `saveApiConfigs`: the sentinel profile is filtered out before writing, so
this returns the new stored list. -/
def saveApiConfigs (configs : List ApiConfig) : List ApiConfig :=
  configs.filter (fun c => c.id ≠ defaultConfigId)

/-- The `addApiConfig` from `src/services/configService.ts`, returning the new
stored list.  The generated id (`config_${Date.now()}_...`) is passed in as
`newId`.  When no custom config exists yet the new one is marked default. -/
def addApiConfig (env : EnvVars) (stored : Option (List ApiConfig))
    (newId : String) (config : ApiConfig) : List ApiConfig :=
  let configs := getApiConfigs env stored
  let customConfigs := configs.filter (fun c => c.id ≠ defaultConfigId)
  let newConfig :=
    if customConfigs = [] then { config with id := newId, isDefault := some true }
    else { config with id := newId }
  saveApiConfigs (configs.filter (fun c => c.id ≠ defaultConfigId) ++ [newConfig])

/-- The `updateApiConfig` from `src/services/configService.ts`, returning the new
stored list, or `none` when the id is not found (the source returns `null`).
The `Partial<ApiConfig>` merge is modelled by the update function `f`. -/
def updateApiConfig (env : EnvVars) (stored : Option (List ApiConfig))
    (id : String) (f : ApiConfig → ApiConfig) : Option (List ApiConfig) :=
  let configs := getApiConfigs env stored
  if configs.any (fun c => c.id = id) then
    some (saveApiConfigs (configs.map (fun c => if c.id = id then f c else c)))
  else none

/-- The in-place mutation `firstCustom.isDefault = true` inside
`deleteApiConfig`: mark the first non-sentinel config of the list default. -/
def markFirstCustomDefault : List ApiConfig → List ApiConfig
  | [] => []
  | c :: rest =>
    if c.id ≠ defaultConfigId then { c with isDefault := some true } :: rest
    else c :: markFirstCustomDefault rest

/-- The `deleteApiConfig` from `src/services/configService.ts`, returning the new
stored list or the thrown error.  Deleting the sentinel id throws before any
write; deleting the profile currently marked default promotes the first
remaining custom profile. -/
def deleteApiConfig (env : EnvVars) (stored : Option (List ApiConfig))
    (id : String) : Except String (List ApiConfig) :=
  if id = defaultConfigId then Except.error "不能删除默认配置"
  else
    let configs := getApiConfigs env stored
    let filtered := configs.filter (fun c => c.id ≠ id)
    let deletedWasDefault :=
      match configs.find? (fun c => c.id = id) with
      | some c => truthy c.isDefault
      | none => false
    let promoted :=
      if deletedWasDefault && !filtered.isEmpty then markFirstCustomDefault filtered
      else filtered
    Except.ok (saveApiConfigs promoted)

/-- The `setDefaultConfig` from `src/services/configService.ts`, returning the new
stored list: every config's flag is set to `c.id === id`, then the sentinel is
filtered out by the save. -/
def setDefaultConfig (env : EnvVars) (stored : Option (List ApiConfig))
    (id : String) : List ApiConfig :=
  saveApiConfigs
    ((getApiConfigs env stored).map (fun c => { c with isDefault := some (c.id = id) }))

/-- The `getActiveConfig` from `src/services/configService.ts`: prefer the config
with the requested id, then the one marked default, then the first. -/
def getActiveConfig (env : EnvVars) (stored : Option (List ApiConfig))
    (configId : Option String) : Option ApiConfig :=
  let configs := getApiConfigs env stored
  match configId with
  | some id =>
    match configs.find? (fun c => c.id = id) with
    | some c => some c
    | none => configs.find? (fun c => truthy c.isDefault) <|> configs.head?
  | none => configs.find? (fun c => truthy c.isDefault) <|> configs.head?

theorem fallbackLoopTr_last_success (att : String → Bool → AttemptOutcome) :
    ∀ (l : List String) (hne : l ≠ []) (r : AnalysisResult),
      (∀ m ∈ l.dropLast, ∃ e, att m (supportsSchema m) = AttemptOutcome.failure e) →
      att (l.getLast hne) (supportsSchema (l.getLast hne)) = AttemptOutcome.success r →
      (fallbackLoopTr att l).2 = Except.ok r := by
  intro l
  induction l with
  | nil => intro hne; exact absurd rfl hne
  | cons m rest ih =>
    intro hne r hfail hlast
    cases rest with
    | nil =>
      have hm : ([m] : List String).getLast hne = m := rfl
      rw [hm] at hlast
      simp [fallbackLoopTr, hlast]
    | cons m2 rest2 =>
      obtain ⟨e, he⟩ := hfail m (by simp [List.dropLast])
      have hne2 : (m2 :: rest2 : List String) ≠ [] := by simp
      have hlast2 : (m :: m2 :: rest2).getLast hne = (m2 :: rest2).getLast hne2 :=
        List.getLast_cons hne2
      rw [hlast2] at hlast
      have htail : ∀ x ∈ (m2 :: rest2).dropLast,
          ∃ e, att x (supportsSchema x) = AttemptOutcome.failure e := by
        intro x hx
        exact hfail x (by simp [List.dropLast]; right; simpa using hx)
      have := ih hne2 r htail hlast
      simp only [fallbackLoopTr, he]
      exact this

theorem fallbackLoopTr_all_fail (att : String → Bool → AttemptOutcome) :
    ∀ (l : List String) (hne : l ≠ []) (e : String),
      (∀ m ∈ l, ∃ em, att m (supportsSchema m) = AttemptOutcome.failure em) →
      att (l.getLast hne) (supportsSchema (l.getLast hne)) = AttemptOutcome.failure e →
      (fallbackLoopTr att l).2 = Except.error (getFriendlyErrorMessage e) := by
  intro l
  induction l with
  | nil => intro hne; exact absurd rfl hne
  | cons m rest ih =>
    intro hne e hfail hlast
    cases rest with
    | nil =>
      have hm : ([m] : List String).getLast hne = m := rfl
      rw [hm] at hlast
      simp [fallbackLoopTr, hlast]
    | cons m2 rest2 =>
      obtain ⟨e0, he0⟩ := hfail m (by simp)
      have hne2 : (m2 :: rest2 : List String) ≠ [] := by simp
      have hlast2 : (m :: m2 :: rest2).getLast hne = (m2 :: rest2).getLast hne2 :=
        List.getLast_cons hne2
      rw [hlast2] at hlast
      have htail : ∀ x ∈ (m2 :: rest2),
          ∃ em, att x (supportsSchema x) = AttemptOutcome.failure em := by
        intro x hx
        exact hfail x (by simp [hx])
      have := ih hne2 e htail hlast
      simp only [fallbackLoopTr, he0]
      exact this

/-- C1: for a profile whose trimmed-and-filtered models list has N entries, if
each of the first N-1 models fails and the Nth returns a parsed result, then
`analyzeUiDifferences` returns the Nth model's parsed `AnalysisResult` and no
error reaches the caller; each intermediate failure only advances the chain. -/
theorem analyze_returns_nth_success
    (c : ApiConfig) (url : Option String) (si : Option FigmaStyleInfo)
    (extractAtt : String → Option FigmaStyleInfo)
    (anAtt : String → Bool → AttemptOutcome) (r : AnalysisResult)
    (hkey : c.apiKey ≠ "")
    (hne : validModelsOf c.models ≠ [])
    (hfail : ∀ m ∈ (validModelsOf c.models).dropLast,
        ∃ e, anAtt m (supportsSchema m) = AttemptOutcome.failure e)
    (hlast : anAtt ((validModelsOf c.models).getLast hne)
        (supportsSchema ((validModelsOf c.models).getLast hne))
        = AttemptOutcome.success r) :
    (analyzeUiDifferences (some c) url si extractAtt anAtt).2 = Except.ok r := by
  show (analyzeUiDifferences (some c) url si extractAtt anAtt).2 = Except.ok r
  simp only [analyzeUiDifferences, if_neg hkey, if_neg hne]
  exact fallbackLoopTr_last_success anAtt (validModelsOf c.models) hne r hfail hlast

/-- Demo issue used by concrete witnesses. -/
def demoIssue : Issue :=
  { category := IssueCategory.spacing
    severity := IssueSeverity.medium
    description := "间距偏差"
    suggestion := "margin: 8px"
    location := "header"
    boundingBox := some [100, 100, 200, 200]
    isIgnored := none }

/-- Demo parsed result used by concrete witnesses. -/
def demoResult : AnalysisResult :=
  { score := 85, summary := "整体还原度良好", issues := [demoIssue] }

/-- Demo profile for the fallback-chain witnesses: two models. -/
def demoChainConfig : ApiConfig :=
  { id := "cfg-1"
    name := "测试配置"
    apiKey := "test-key"
    baseUrl := none
    models := ["modelA", "modelB"]
    isDefault := none }

/-- Demo attempt function: the first model fails, the second succeeds. -/
def demoChainAtt : String → Bool → AttemptOutcome := fun m _ =>
  if m = "modelA" then AttemptOutcome.failure "Failed to fetch"
  else AttemptOutcome.success demoResult

theorem analyze_returns_nth_success_witness :
    demoChainConfig.apiKey ≠ "" ∧
    (analyzeUiDifferences (some demoChainConfig) none none (fun _ => none)
        demoChainAtt).2 = Except.ok demoResult := by
  refine ⟨by decide, ?_⟩
  exact analyze_returns_nth_success demoChainConfig none none (fun _ => none)
    demoChainAtt demoResult (by decide) (by decide)
    (by
      intro m hm
      have hm' : m = "modelA" := by
        have : (validModelsOf demoChainConfig.models).dropLast = ["modelA"] := by decide
        rw [this] at hm
        simpa using hm
      subst hm'
      exact ⟨"Failed to fetch", rfl⟩)
    (by
      have : (validModelsOf demoChainConfig.models).getLast (by decide) = "modelB" := by decide
      simp only [this]
      rfl)

/-- C2: when every model in the chain fails, `analyzeUiDifferences` throws one
error derived from the last failure's message through `ERROR_MAPPINGS`: a
message containing "403" maps to the invalid-credentials/forbidden message,
and a message matching no table key maps to the generic message carrying its
first 100 characters. -/
theorem analyze_all_fail_friendly_error
    (c : ApiConfig) (url : Option String) (si : Option FigmaStyleInfo)
    (extractAtt : String → Option FigmaStyleInfo)
    (anAtt : String → Bool → AttemptOutcome) (e : String)
    (hkey : c.apiKey ≠ "")
    (hne : validModelsOf c.models ≠ [])
    (hfail : ∀ m ∈ validModelsOf c.models,
        ∃ em, anAtt m (supportsSchema m) = AttemptOutcome.failure em)
    (hlast : anAtt ((validModelsOf c.models).getLast hne)
        (supportsSchema ((validModelsOf c.models).getLast hne))
        = AttemptOutcome.failure e) :
    (analyzeUiDifferences (some c) url si extractAtt anAtt).2
        = Except.error (getFriendlyErrorMessage e) ∧
    (strIncludes e "403" = true →
        getFriendlyErrorMessage e = "API Key 无效或无权限，请检查配置 (403 Forbidden)。") ∧
    ((∃ kv ∈ ERROR_MAPPINGS, strIncludes e kv.1 = true) →
        ∃ kv ∈ ERROR_MAPPINGS, strIncludes e kv.1 = true ∧
          getFriendlyErrorMessage e = kv.2) ∧
    ((∀ kv ∈ ERROR_MAPPINGS, strIncludes e kv.1 = false) →
        getFriendlyErrorMessage e = "分析服务异常: " ++ e.take 100 ++ "...") := by
  refine ⟨?_, ?_, ?_, ?_⟩
  · simp only [analyzeUiDifferences, if_neg hkey, if_neg hne]
    exact fallbackLoopTr_all_fail anAtt (validModelsOf c.models) hne e hfail hlast
  · intro h403
    simp [getFriendlyErrorMessage, ERROR_MAPPINGS, List.find?, h403]
  · rintro ⟨kv, hkv, hinc⟩
    have hsome : (ERROR_MAPPINGS.find? (fun kv => strIncludes e kv.1)).isSome := by
      rw [List.find?_isSome]
      exact ⟨kv, hkv, hinc⟩
    obtain ⟨kv2, hfind⟩ := Option.isSome_iff_exists.mp hsome
    have hp := List.find?_some hfind
    refine ⟨kv2, List.mem_of_find?_eq_some hfind, by simpa using hp, ?_⟩
    simp [getFriendlyErrorMessage, hfind]
  · intro hnone
    have hfind : ERROR_MAPPINGS.find? (fun kv => strIncludes e kv.1) = none := by
      rw [List.find?_eq_none]
      intro kv hkv
      simp [hnone kv hkv]
    simp [getFriendlyErrorMessage, hfind]

/-- Demo profile for the all-fail witness: one model. -/
def demoFailConfig : ApiConfig :=
  { id := "cfg-2"
    name := "测试配置2"
    apiKey := "test-key"
    baseUrl := none
    models := ["modelA"]
    isDefault := none }

/-- Demo attempt function failing with a message containing "403". -/
def demoFailAtt : String → Bool → AttemptOutcome := fun _ _ =>
  AttemptOutcome.failure "got status: 403 UNAUTHENTICATED"

theorem analyze_all_fail_friendly_error_witness :
    (analyzeUiDifferences (some demoFailConfig) none none (fun _ => none)
        demoFailAtt).2
      = Except.error "API Key 无效或无权限，请检查配置 (403 Forbidden)。" := by
  have h := analyze_all_fail_friendly_error demoFailConfig none none
    (fun _ => none) demoFailAtt "got status: 403 UNAUTHENTICATED"
    (by decide) (by decide)
    (by
      intro m hm
      have hm' : m = "modelA" := by
        have hvm : validModelsOf demoFailConfig.models = ["modelA"] := by decide
        rw [hvm] at hm
        simpa using hm
      subst hm'
      exact ⟨"got status: 403 UNAUTHENTICATED", rfl⟩)
    (by
      have hvm : (validModelsOf demoFailConfig.models).getLast (by decide)
          = "modelA" := by decide
      simp only [hvm]
      rfl)
  rw [h.1, h.2.1 (by decide)]

/-- C3 counterexample: the box `[1000, 0, 0, 0]` has every component in
`[0, 1000]`, yet the overlay mapping gives it a height of `-100` percent, so
the mapped values do not all lie in `[0, 100]` for arbitrary in-range
components (the source never checks `ymin ≤ ymax`). -/
theorem markerStyle_inverted_box_counterexample :
    (markerStyle 1000 0 0 0).height = -100 ∧
    ¬(0 ≤ (markerStyle 1000 0 0 0).height) := by
  constructor
  · norm_num [markerStyle]
  · norm_num [markerStyle]

/-- C3 (amended): for a 4-integer box with components in `[0, 1000]` and
`ymin ≤ ymax`, `xmin ≤ xmax`, the overlay mapping produces top `= ymin/10`,
left `= xmin/10`, height `= (ymax-ymin)/10`, width `= (xmax-xmin)/10`
percent, recomputing the mapping on the same box yields the same values, and
all four values lie in `[0, 100]`. -/
theorem markerStyle_spec (ymin xmin ymax xmax : Int)
    (hy0 : 0 ≤ ymin) (hy1 : ymin ≤ 1000)
    (hx0 : 0 ≤ xmin) (hx1 : xmin ≤ 1000)
    (hY0 : 0 ≤ ymax) (hY1 : ymax ≤ 1000)
    (hX0 : 0 ≤ xmax) (hX1 : xmax ≤ 1000)
    (hyo : ymin ≤ ymax) (hxo : xmin ≤ xmax) :
    (markerStyle ymin xmin ymax xmax).top = (ymin : ℚ) / 10 ∧
    (markerStyle ymin xmin ymax xmax).left = (xmin : ℚ) / 10 ∧
    (markerStyle ymin xmin ymax xmax).height = ((ymax : ℚ) - (ymin : ℚ)) / 10 ∧
    (markerStyle ymin xmin ymax xmax).width = ((xmax : ℚ) - (xmin : ℚ)) / 10 ∧
    markerStyle ymin xmin ymax xmax = markerStyle ymin xmin ymax xmax ∧
    (0 ≤ (markerStyle ymin xmin ymax xmax).top ∧
      (markerStyle ymin xmin ymax xmax).top ≤ 100) ∧
    (0 ≤ (markerStyle ymin xmin ymax xmax).left ∧
      (markerStyle ymin xmin ymax xmax).left ≤ 100) ∧
    (0 ≤ (markerStyle ymin xmin ymax xmax).height ∧
      (markerStyle ymin xmin ymax xmax).height ≤ 100) ∧
    (0 ≤ (markerStyle ymin xmin ymax xmax).width ∧
      (markerStyle ymin xmin ymax xmax).width ≤ 100) := by
  have qy0 : (0 : ℚ) ≤ (ymin : ℚ) := by exact_mod_cast hy0
  have qy1 : (ymin : ℚ) ≤ 1000 := by exact_mod_cast hy1
  have qx0 : (0 : ℚ) ≤ (xmin : ℚ) := by exact_mod_cast hx0
  have qx1 : (xmin : ℚ) ≤ 1000 := by exact_mod_cast hx1
  have qY0 : (0 : ℚ) ≤ (ymax : ℚ) := by exact_mod_cast hY0
  have qY1 : (ymax : ℚ) ≤ 1000 := by exact_mod_cast hY1
  have qX0 : (0 : ℚ) ≤ (xmax : ℚ) := by exact_mod_cast hX0
  have qX1 : (xmax : ℚ) ≤ 1000 := by exact_mod_cast hX1
  have qyo : (ymin : ℚ) ≤ (ymax : ℚ) := by exact_mod_cast hyo
  have qxo : (xmin : ℚ) ≤ (xmax : ℚ) := by exact_mod_cast hxo
  refine ⟨rfl, rfl, rfl, rfl, rfl, ⟨?_, ?_⟩, ⟨?_, ?_⟩, ⟨?_, ?_⟩, ⟨?_, ?_⟩⟩ <;>
    simp only [markerStyle] <;>
    [skip; skip; skip; skip; skip; skip; skip; skip] <;>
    first
    | (apply div_nonneg <;> linarith)
    | (rw [div_le_iff₀ (by norm_num : (0:ℚ) < 10)]; linarith)

theorem markerStyle_spec_witness :
    (markerStyle 100 100 200 200).top = 10 ∧
    0 ≤ (markerStyle 100 100 200 200).height ∧
    (markerStyle 100 100 200 200).height ≤ 100 := by
  have h := markerStyle_spec 100 100 200 200 (by norm_num) (by norm_num)
    (by norm_num) (by norm_num) (by norm_num) (by norm_num) (by norm_num)
    (by norm_num) (by norm_num) (by norm_num)
  refine ⟨?_, h.2.2.2.2.2.2.2.1.1, h.2.2.2.2.2.2.2.1.2⟩
  rw [h.1]
  norm_num

/-- C4: for an issue whose `boundingBox` is absent or does not have exactly 4
components, `IssueMarker` renders no overlay element and `CroppedImage`
renders no cropped view; both are total, so no error is raised. -/
theorem invalid_box_renders_nothing (issue : Issue) (index : Nat)
    (h : ∀ b, issue.boundingBox = some b → b.length ≠ 4) :
    renderIssueMarker issue index = none ∧
    renderCroppedImage issue.boundingBox = none := by
  rcases hbb : issue.boundingBox with _ | b
  · simp [renderIssueMarker, renderCroppedImage, hbb]
  · have hlen := h b hbb
    rcases b with _ | ⟨a1, _ | ⟨a2, _ | ⟨a3, _ | ⟨a4, _ | ⟨a5, t⟩⟩⟩⟩⟩ <;>
      first
        | exact absurd rfl hlen
        | simp [renderIssueMarker, renderCroppedImage, hbb]

/-- Issue with a 3-component box, used by the C4 witness. -/
def demoBadBoxIssue : Issue :=
  { category := IssueCategory.color
    severity := IssueSeverity.low
    description := "颜色偏差"
    suggestion := "color: #333"
    location := "footer"
    boundingBox := some [1, 2, 3]
    isIgnored := none }

theorem invalid_box_renders_nothing_witness :
    renderIssueMarker demoBadBoxIssue 0 = none ∧
    renderCroppedImage demoBadBoxIssue.boundingBox = none := by
  refine invalid_box_renders_nothing demoBadBoxIssue 0 ?_
  intro b hb
  rw [show demoBadBoxIssue.boundingBox = some [(1 : Int), 2, 3] from rfl] at hb
  injection hb with hb
  subst hb
  decide

/-- C5 counterexample: a 100x5000 image is left untouched by `compressImage`
(only widths above 1024 trigger scaling), so the produced image's height
exceeds 1024 — the claim that neither dimension exceeds 1024 is false.  The
injective `encode` exposes the canvas dimensions in the output. -/
theorem resizeDims_tall_image_counterexample :
    (resizeDims 100 5000).2 = 5000 ∧
    ¬((resizeDims 100 5000).1 ≤ 1024 ∧ (resizeDims 100 5000).2 ≤ 1024) ∧
    compressImage "img" (some (100, 5000)) true
        (fun w h => toString w ++ "x" ++ toString h) = "100x5000" := by
  refine ⟨by decide, by decide, ?_⟩
  rfl

/-- C5 (amended): `compressImage` caps only the width at 1024: the canvas
width never exceeds 1024, images at most 1024 wide are left at their original
size, and when the image is downscaled (width above 1024) the height is
`Math.round(height * 1024 / width)`, preserving the aspect ratio up to
integer rounding (within 1/2 of the exact scaled height). -/
theorem resizeDims_spec (w h : Nat) :
    (resizeDims w h).1 ≤ 1024 ∧
    (w ≤ 1024 → resizeDims w h = (w, h)) ∧
    (1024 < w → (resizeDims w h).1 = 1024 ∧
      |((resizeDims w h).2 : ℚ) - (h : ℚ) * 1024 / (w : ℚ)| ≤ 1 / 2) := by
  by_cases hw : 1024 < w
  · have hrw : resizeDims w h = (1024, jsRoundDiv (h * 1024) w) := by
      simp [resizeDims, hw]
    refine ⟨by rw [hrw], fun hle => absurd hw (by omega), fun _ => ⟨by rw [hrw], ?_⟩⟩
    rw [hrw]
    have hw0 : 0 < w := by omega
    have hW : (0 : ℚ) < (w : ℚ) := by exact_mod_cast hw0
    have hkey := Nat.div_add_mod (2 * (h * 1024) + w) (2 * w)
    have hmod : (2 * (h * 1024) + w) % (2 * w) < 2 * w :=
      Nat.mod_lt _ (by omega)
    set q := (2 * (h * 1024) + w) / (2 * w) with hq
    set rm := (2 * (h * 1024) + w) % (2 * w) with hrm
    have hkeyQ : 2 * (w : ℚ) * (q : ℚ) + (rm : ℚ) = 2 * ((h : ℚ) * 1024) + (w : ℚ) := by
      exact_mod_cast hkey
    have hmodQ : (rm : ℚ) < 2 * (w : ℚ) := by exact_mod_cast hmod
    have hmod0 : (0 : ℚ) ≤ (rm : ℚ) := by positivity
    have hjs : ((jsRoundDiv (h * 1024) w : Nat) : ℚ) = (q : ℚ) := by
      simp [jsRoundDiv, hq]
    show |((jsRoundDiv (h * 1024) w : Nat) : ℚ) - (h : ℚ) * 1024 / (w : ℚ)| ≤ 1 / 2
    rw [hjs]
    have hWne : (w : ℚ) ≠ 0 := ne_of_gt hW
    have h2 : (q : ℚ) = (2 * ((h : ℚ) * 1024) + (w : ℚ) - (rm : ℚ)) / (2 * (w : ℚ)) := by
      rw [eq_div_iff (by positivity : (2 : ℚ) * (w : ℚ) ≠ 0)]
      linarith
    have hdiff : (q : ℚ) - (h : ℚ) * 1024 / (w : ℚ)
        = ((w : ℚ) - (rm : ℚ)) / (2 * (w : ℚ)) := by
      rw [h2]
      field_simp
      ring
    rw [hdiff, abs_le]
    constructor
    · rw [le_div_iff₀ (by positivity : (0 : ℚ) < 2 * (w : ℚ))]
      linarith
    · rw [div_le_iff₀ (by positivity : (0 : ℚ) < 2 * (w : ℚ))]
      linarith
  · have hrw : resizeDims w h = (w, h) := by
      simp [resizeDims, hw]
    exact ⟨by rw [hrw]; omega, fun _ => hrw, fun hlt => absurd hlt hw⟩

theorem resizeDims_spec_witness :
    (resizeDims 2048 4096).1 = 1024 ∧ resizeDims 800 600 = (800, 600) :=
  ⟨((resizeDims_spec 2048 4096).2.2 (by norm_num)).1,
   (resizeDims_spec 800 600).2.1 (by norm_num)⟩

theorem extractLoopTr_all_none (att : String → Option FigmaStyleInfo) :
    ∀ (l : List String), (∀ m ∈ l, att m = none) →
      (extractLoopTr att l).2 = none := by
  intro l
  induction l with
  | nil => intro _; rfl
  | cons m rest ih =>
    intro hall
    have hm : att m = none := hall m (by simp)
    simp only [extractLoopTr, hm]
    exact ih (fun x hx => hall x (by simp [hx]))

/-- C6: `extractFigmaStyles` never throws — it is a total function into
`Option` — and returns `null` (not an error) when the URL is empty or
whitespace-only, when no config or API key is available, and when every model
in the profile's list fails to return parseable JSON. -/
theorem extractFigmaStyles_null_degradation (figmaUrl : String)
    (config : Option ApiConfig) (att : String → Option FigmaStyleInfo) :
    (jsTrim figmaUrl = "" → extractFigmaStyles figmaUrl config att = none) ∧
    (config = none → extractFigmaStyles figmaUrl config att = none) ∧
    (∀ c, config = some c → c.apiKey = "" →
        extractFigmaStyles figmaUrl config att = none) ∧
    (∀ c, config = some c → (∀ m ∈ c.models, att m = none) →
        extractFigmaStyles figmaUrl config att = none) := by
  refine ⟨?_, ?_, ?_, ?_⟩
  · intro hurl
    simp [extractFigmaStyles, extractFigmaStylesTr, hurl]
  · intro hc
    subst hc
    by_cases hurl : jsTrim figmaUrl = "" <;>
      simp [extractFigmaStyles, extractFigmaStylesTr, hurl]
  · intro c hc hkey
    subst hc
    by_cases hurl : jsTrim figmaUrl = "" <;>
      simp [extractFigmaStyles, extractFigmaStylesTr, hurl, hkey]
  · intro c hc hall
    subst hc
    by_cases hurl : jsTrim figmaUrl = ""
    · simp [extractFigmaStyles, extractFigmaStylesTr, hurl]
    · by_cases hkey : c.apiKey = ""
      · simp [extractFigmaStyles, extractFigmaStylesTr, hurl, hkey]
      · simp only [extractFigmaStyles, extractFigmaStylesTr, if_neg hurl, if_neg hkey]
        exact extractLoopTr_all_none att c.models hall

/-- Demo profile for the extraction witness. -/
def demoFigmaConfig : ApiConfig :=
  { id := "cfg-3"
    name := "测试配置3"
    apiKey := "test-key"
    baseUrl := none
    models := ["modelA", "modelB"]
    isDefault := none }

theorem extractFigmaStyles_null_degradation_witness :
    extractFigmaStyles "   " (some demoFigmaConfig) (fun _ => none) = none ∧
    extractFigmaStyles "https://www.figma.com/file/key" (some demoFigmaConfig)
        (fun _ => none) = none := by
  constructor
  · exact (extractFigmaStyles_null_degradation "   " (some demoFigmaConfig)
      (fun _ => none)).1 (by decide)
  · exact (extractFigmaStyles_null_degradation "https://www.figma.com/file/key"
      (some demoFigmaConfig) (fun _ => none)).2.2.2 demoFigmaConfig rfl
      (fun _ _ => rfl)

theorem extractLoopTr_calls_extraction (att : String → Option FigmaStyleInfo) :
    ∀ (l : List String) (p : ProviderCall), p ∈ (extractLoopTr att l).1 →
      ∃ m, p = ProviderCall.extraction m := by
  intro l
  induction l with
  | nil => intro p hp; simp [extractLoopTr] at hp
  | cons m rest ih =>
    intro p hp
    cases hm : att m with
    | some r =>
      simp only [extractLoopTr, hm] at hp
      simp at hp
      exact ⟨m, hp⟩
    | none =>
      simp only [extractLoopTr, hm, List.mem_cons] at hp
      rcases hp with hp | hp
      · exact ⟨m, hp⟩
      · exact ih p hp

theorem extractionCalls_extraction (c : ApiConfig) (figmaUrl : Option String)
    (si : Option FigmaStyleInfo) (att : String → Option FigmaStyleInfo) :
    ∀ p ∈ extractionCalls c figmaUrl si att, ∃ m, p = ProviderCall.extraction m := by
  intro p hp
  cases si with
  | some _ => simp [extractionCalls] at hp
  | none =>
    cases figmaUrl with
    | none => simp [extractionCalls] at hp
    | some url =>
      by_cases hurl : url = ""
      · simp [extractionCalls, hurl] at hp
      · simp only [extractionCalls, if_neg hurl] at hp
        by_cases htrim : jsTrim url = ""
        · simp [extractFigmaStylesTr, htrim] at hp
        · by_cases hkey : c.apiKey = ""
          · simp [extractFigmaStylesTr, htrim, hkey] at hp
          · simp only [extractFigmaStylesTr, if_neg htrim, if_neg hkey] at hp
            exact extractLoopTr_calls_extraction att c.models p hp

/-- Profile with a whitespace-only models list, used for C7. -/
def whitespaceModelsConfig : ApiConfig :=
  { id := "cfg-4"
    name := "空模型配置"
    apiKey := "test-key"
    baseUrl := none
    models := [" "]
    isDefault := none }

/-- C7 counterexample: with a profile whose models list is empty after
trimming (one whitespace-only entry), a supplied Figma URL and no
pre-extracted style info, `analyzeUiDifferences` does fail with the
configuration error, but a provider call (the Figma extraction attempt against
the untrimmed model entry) is issued before that failure — so "no network call
to the model provider is made before that failure" is false. -/
theorem analyze_empty_models_counterexample :
    (analyzeUiDifferences (some whitespaceModelsConfig)
        (some "https://www.figma.com/file/key") none (fun _ => none)
        (fun _ _ => AttemptOutcome.failure "e")).1
      = [ProviderCall.extraction " "] ∧
    (analyzeUiDifferences (some whitespaceModelsConfig)
        (some "https://www.figma.com/file/key") none (fun _ => none)
        (fun _ _ => AttemptOutcome.failure "e")).1 ≠ [] ∧
    (analyzeUiDifferences (some whitespaceModelsConfig)
        (some "https://www.figma.com/file/key") none (fun _ => none)
        (fun _ _ => AttemptOutcome.failure "e")).2
      = Except.error "配置中没有有效的模型名称，请检查 API 配置中的模型列表" := by
  refine ⟨by decide, by decide, rfl⟩

/-- C7 (amended): for a profile whose models list is empty after trimming,
`analyzeUiDifferences` fails with the configuration-missing error before any
analysis call to the model provider; and when no Figma extraction is triggered
(style info already supplied, or no/empty Figma URL) no provider call at all
precedes the failure.  (When a Figma URL is supplied without pre-extracted
styles, extraction calls to the provider may still occur first.) -/
theorem analyze_empty_models_config_error
    (c : ApiConfig) (url : Option String) (si : Option FigmaStyleInfo)
    (extractAtt : String → Option FigmaStyleInfo)
    (anAtt : String → Bool → AttemptOutcome)
    (hkey : c.apiKey ≠ "")
    (hempty : validModelsOf c.models = []) :
    (analyzeUiDifferences (some c) url si extractAtt anAtt).2
        = Except.error "配置中没有有效的模型名称，请检查 API 配置中的模型列表" ∧
    (∀ p ∈ (analyzeUiDifferences (some c) url si extractAtt anAtt).1,
        ∃ m, p = ProviderCall.extraction m) ∧
    ((si ≠ none ∨ url = none ∨ url = some "") →
        (analyzeUiDifferences (some c) url si extractAtt anAtt).1 = []) := by
  have hrw : analyzeUiDifferences (some c) url si extractAtt anAtt
      = (extractionCalls c url si extractAtt,
         Except.error "配置中没有有效的模型名称，请检查 API 配置中的模型列表") := by
    simp [analyzeUiDifferences, if_neg hkey, hempty]
  refine ⟨by rw [hrw], ?_, ?_⟩
  · rw [hrw]
    exact extractionCalls_extraction c url si extractAtt
  · intro hcase
    rw [hrw]
    show extractionCalls c url si extractAtt = []
    rcases hcase with hsi | hurl | hurl
    · cases hsi' : si with
      | none => exact absurd hsi' hsi
      | some v => simp [extractionCalls, hsi']
    · subst hurl
      cases si <;> simp [extractionCalls]
    · subst hurl
      cases si <;> simp [extractionCalls]

theorem analyze_empty_models_config_error_witness :
    (analyzeUiDifferences (some whitespaceModelsConfig) none none
        (fun _ => none) (fun _ _ => AttemptOutcome.failure "e")).2
      = Except.error "配置中没有有效的模型名称，请检查 API 配置中的模型列表" ∧
    (analyzeUiDifferences (some whitespaceModelsConfig) none none
        (fun _ => none) (fun _ _ => AttemptOutcome.failure "e")).1 = [] := by
  have h := analyze_empty_models_config_error whitespaceModelsConfig none none
    (fun _ => none) (fun _ _ => AttemptOutcome.failure "e") (by decide) (by decide)
  exact ⟨h.1, h.2.2 (Or.inr (Or.inl rfl))⟩

/-- Environment with an API key, used by the configuration-store theorems. -/
def demoEnv : EnvVars := { apiKey := some "env-key", baseUrl := none }

/-- A custom profile as submitted by the user (id assigned by `addApiConfig`). -/
def demoNewProfile : ApiConfig :=
  { id := ""
    name := "我的配置"
    apiKey := "user-key"
    baseUrl := none
    models := ["gemini-1.5-pro"]
    isDefault := none }

/-- C8 (the code evaluated at the failing input): starting from empty storage,
a single `addApiConfig` yields a stored state in which `getApiConfigs` returns
TWO profiles marked default (the environment sentinel, which
`getDefaultConfig` unconditionally builds with `isDefault: true`, and the new
custom profile, which `addApiConfig` marks default as the first custom
config), violating the exactly-one-default invariant.  The remaining parts of
the claim do hold: the sentinel is present and deleting it throws. -/
theorem getApiConfigs_two_defaults :
    ((getApiConfigs demoEnv
        (some (addApiConfig demoEnv none "config_1" demoNewProfile))).countP
      (fun c => truthy c.isDefault)) = 2 ∧
    ((getApiConfigs demoEnv
        (some (addApiConfig demoEnv none "config_1" demoNewProfile))).any
      (fun c => c.id = defaultConfigId)) = true ∧
    deleteApiConfig demoEnv
        (some (addApiConfig demoEnv none "config_1" demoNewProfile))
        defaultConfigId
      = Except.error "不能删除默认配置" := by
  refine ⟨by decide, by decide, rfl⟩

theorem renderIssueMarker_fields (issue : Issue) (i : Nat) (m : Marker)
    (h : renderIssueMarker issue i = some m) :
    m.index = i ∧ m.badge = i + 1 ∧ m.clickIndex = i := by
  rcases hbb : issue.boundingBox with _ | b
  · simp [renderIssueMarker, hbb] at h
  · rcases b with _ | ⟨a1, _ | ⟨a2, _ | ⟨a3, _ | ⟨a4, _ | ⟨a5, t⟩⟩⟩⟩⟩ <;>
      simp [renderIssueMarker, hbb] at h
    obtain rfl := h.symm
    exact ⟨rfl, rfl, rfl⟩

theorem renderMarkersFrom_mem :
    ∀ (issues : List Issue) (k : Nat) (m : Marker),
      m ∈ renderMarkersFrom issues k →
      ∃ j, ∃ (hj : j < issues.length),
        truthy (issues.get ⟨j, hj⟩).isIgnored = false ∧
        renderIssueMarker (issues.get ⟨j, hj⟩) (k + j) = some m := by
  intro issues
  induction issues with
  | nil => intro k m hm; simp [renderMarkersFrom] at hm
  | cons issue rest ih =>
    intro k m hm
    by_cases hig : truthy issue.isIgnored = true
    · rw [renderMarkersFrom, if_pos hig] at hm
      obtain ⟨j, hj, h1, h2⟩ := ih (k + 1) m hm
      refine ⟨j + 1, Nat.succ_lt_succ hj, h1, ?_⟩
      have hk : k + (j + 1) = (k + 1) + j := by omega
      rw [hk]
      exact h2
    · have hig' : truthy issue.isIgnored = false := by
        revert hig; cases truthy issue.isIgnored <;> simp
      cases hmk : renderIssueMarker issue k with
      | some m0 =>
        rw [renderMarkersFrom, if_neg hig, hmk] at hm
        rcases List.mem_cons.mp hm with rfl | hm'
        · exact ⟨0, Nat.succ_pos _, hig', by rw [Nat.add_zero]; exact hmk⟩
        · obtain ⟨j, hj, h1, h2⟩ := ih (k + 1) m hm'
          refine ⟨j + 1, Nat.succ_lt_succ hj, h1, ?_⟩
          have hk : k + (j + 1) = (k + 1) + j := by omega
          rw [hk]
          exact h2
      | none =>
        rw [renderMarkersFrom, if_neg hig, hmk] at hm
        obtain ⟨j, hj, h1, h2⟩ := ih (k + 1) m hm
        refine ⟨j + 1, Nat.succ_lt_succ hj, h1, ?_⟩
        have hk : k + (j + 1) = (k + 1) + j := by omega
        rw [hk]
        exact h2

theorem renderMarkersFrom_complete :
    ∀ (issues : List Issue) (k i : Nat) (hi : i < issues.length) (m : Marker),
      truthy (issues.get ⟨i, hi⟩).isIgnored = false →
      renderIssueMarker (issues.get ⟨i, hi⟩) (k + i) = some m →
      m ∈ renderMarkersFrom issues k := by
  intro issues
  induction issues with
  | nil => intro k i hi; exact absurd hi (by simp)
  | cons issue rest ih =>
    intro k i hi m hig hmk
    cases i with
    | zero =>
      have hg : (issue :: rest).get ⟨0, hi⟩ = issue := rfl
      rw [hg] at hig hmk
      rw [Nat.add_zero] at hmk
      rw [renderMarkersFrom, if_neg (by simp [hig] : ¬truthy issue.isIgnored = true), hmk]
      exact List.mem_cons_self _ _
    | succ j =>
      have hj : j < rest.length := Nat.lt_of_succ_lt_succ hi
      have hmem : m ∈ renderMarkersFrom rest (k + 1) := by
        refine ih (k + 1) j hj m hig ?_
        have hk : (k + 1) + j = k + (j + 1) := by omega
        rw [hk]
        exact hmk
      by_cases hig0 : truthy issue.isIgnored = true
      · rw [renderMarkersFrom, if_pos hig0]
        exact hmem
      · cases hmk0 : renderIssueMarker issue k with
        | some m0 =>
          rw [renderMarkersFrom, if_neg hig0, hmk0]
          exact List.mem_cons_of_mem _ hmem
        | none =>
          rw [renderMarkersFrom, if_neg hig0, hmk0]
          exact hmem

/-- C9: the overlay preserves the original sequence's indexing across
filtering.  Every rendered marker originates from the issue at position
`m.index` of the original (unfiltered) list — that issue is not ignored, the
badge shows `m.index + 1` and clicking reports `m.index` — an issue with
`isIgnored` set renders no marker, and every non-ignored issue with a valid
box renders a marker carrying its original index, regardless of how many
earlier issues are ignored or lack a valid box. -/
theorem renderMarkers_index_stable (issues : List Issue) :
    (∀ m ∈ renderMarkers issues, ∃ (h : m.index < issues.length),
        truthy (issues.get ⟨m.index, h⟩).isIgnored = false ∧
        renderIssueMarker (issues.get ⟨m.index, h⟩) m.index = some m ∧
        m.badge = m.index + 1 ∧ m.clickIndex = m.index) ∧
    (∀ (i : Nat) (hi : i < issues.length),
        truthy (issues.get ⟨i, hi⟩).isIgnored = true →
        ∀ m ∈ renderMarkers issues, m.index ≠ i) ∧
    (∀ (i : Nat) (hi : i < issues.length) (m : Marker),
        truthy (issues.get ⟨i, hi⟩).isIgnored = false →
        renderIssueMarker (issues.get ⟨i, hi⟩) i = some m →
        m ∈ renderMarkers issues ∧ m.badge = i + 1 ∧ m.clickIndex = i) := by
  have hmem : ∀ m ∈ renderMarkers issues, ∃ (h : m.index < issues.length),
      truthy (issues.get ⟨m.index, h⟩).isIgnored = false ∧
      renderIssueMarker (issues.get ⟨m.index, h⟩) m.index = some m ∧
      m.badge = m.index + 1 ∧ m.clickIndex = m.index := by
    intro m hm
    obtain ⟨j, hj, h1, h2⟩ := renderMarkersFrom_mem issues 0 m hm
    rw [Nat.zero_add] at h2
    obtain ⟨hidx, hb, hc⟩ := renderIssueMarker_fields _ _ _ h2
    subst hidx
    exact ⟨hj, h1, h2, hb, hc⟩
  refine ⟨hmem, ?_, ?_⟩
  · intro i hi hig m hm heq
    obtain ⟨hj, h1, _, _⟩ := hmem m hm
    subst heq
    rw [h1] at hig
    exact Bool.false_ne_true hig
  · intro i hi m hig hmk
    have hm : m ∈ renderMarkers issues := by
      refine renderMarkersFrom_complete issues 0 i hi m hig ?_
      rw [Nat.zero_add]
      exact hmk
    obtain ⟨hidx, hb, hc⟩ := renderIssueMarker_fields _ _ _ hmk
    exact ⟨hm, hidx ▸ hb, hidx ▸ hc⟩

/-- Ignored issue for the C9 witness. -/
def demoIgnoredIssue : Issue :=
  { category := IssueCategory.text
    severity := IssueSeverity.high
    description := "文字错误"
    suggestion := "修正文字"
    location := "title"
    boundingBox := some [0, 0, 10, 10]
    isIgnored := some true }

/-- Issue without a box for the C9 witness. -/
def demoNoBoxIssue : Issue :=
  { category := IssueCategory.other
    severity := IssueSeverity.low
    description := "其他问题"
    suggestion := "检查"
    location := "body"
    boundingBox := none
    isIgnored := none }

/-- Issue list mixing an ignored issue, an issue without a box and one valid
issue at original index 2, for the C9 witness. -/
def demoIssueList : List Issue := [demoIgnoredIssue, demoNoBoxIssue, demoIssue]

/-- The marker the valid issue at index 2 produces. -/
def demoMarker : Marker :=
  { index := 2
    badge := 3
    clickIndex := 2
    style := markerStyle 100 100 200 200
    severity := IssueSeverity.medium }

theorem renderMarkers_index_stable_witness :
    demoMarker ∈ renderMarkers demoIssueList ∧
    demoMarker.badge = 2 + 1 ∧ demoMarker.clickIndex = 2 := by
  have h := (renderMarkers_index_stable demoIssueList).2.2 2 (by decide)
    demoMarker (by decide) rfl
  exact ⟨h.1, h.2.1, h.2.2⟩

/-- C10: `compressImage` is total over its failure modes — it always resolves
(a total function here) — and on a decode failure (`img.onerror`) or a missing
canvas 2D context it resolves with the original base64 payload unchanged
except that any leading data-URL header is stripped; a payload without such a
header is returned verbatim. -/
theorem compressImage_failure_fallback (base64Str : String)
    (decode : Option (Nat × Nat)) (ctxAvailable : Bool)
    (encode : Nat → Nat → String) :
    (decode = none →
        compressImage base64Str decode ctxAvailable encode
          = stripDataHeader base64Str) ∧
    (ctxAvailable = false →
        compressImage base64Str decode ctxAvailable encode
          = stripDataHeader base64Str) ∧
    (dataHeaderEnd base64Str = none → stripDataHeader base64Str = base64Str) := by
  refine ⟨?_, ?_, ?_⟩
  · intro h
    subst h
    rfl
  · intro h
    subst h
    cases decode with
    | none => rfl
    | some wh => cases wh with | mk w h0 => simp [compressImage]
  · intro h
    simp [stripDataHeader, h]

theorem compressImage_failure_fallback_witness :
    compressImage "iVBORw0KGgo" none true (fun _ _ => "enc") = "iVBORw0KGgo" ∧
    compressImage "iVBORw0KGgo" (some (2000, 1000)) false (fun _ _ => "enc")
      = "iVBORw0KGgo" := by
  have h1 := (compressImage_failure_fallback "iVBORw0KGgo" none true
    (fun _ _ => "enc")).1 rfl
  have h2 := (compressImage_failure_fallback "iVBORw0KGgo" (some (2000, 1000))
    false (fun _ _ => "enc")).2.1 rfl
  have h3 := (compressImage_failure_fallback "iVBORw0KGgo" none true
    (fun _ _ => "enc")).2.2 (by decide)
  rw [h3] at h1 h2
  exact ⟨h1, h2⟩
